import Mathlib

/-!
Verification of the OS entropy source in `src/rngs/os.rs`: the chunking engine
(`OsRng::try_fill_bytes`), the retry/backoff orchestrator (`OsRng::fill_bytes`),
the error classifier and the shared random-device handle (`mod random_device`).

Machine integers (`u32`, `usize`) are modelled as `Nat`; none of the modelled
arithmetic can overflow (the constants involved are 10, 100, 1000, 8 and buffer
lengths, and the source only adds and divides them well below `u32::MAX`).
Fallible Rust functions returning `Result<T, Error>` become `Except RandError T`.
-/

set_option autoImplicit false

/-- `rand_core::ErrorKind`: the four-kind error taxonomy interpreted by the
retry orchestrator (the hidden `__Nonexhaustive` variant is unconstructible and
therefore omitted). -/
inductive ErrorKind where
  | Unavailable
  | Unexpected
  | Transient
  | NotReady
deriving DecidableEq, Repr

/-- `std::io::ErrorKind`, restricted to the variants the classifier in
`src/rngs/os.rs` distinguishes, plus representatives of the catch-all arm. -/
inductive IOErrorKind where
  | Interrupted
  | WouldBlock
  | UnexpectedEof
  | NotFound
  | PermissionDenied
  | Other
deriving DecidableEq, Repr

/-- `std::io::Error`, reduced to the data the classifier inspects (its kind). -/
structure IOError where
  kind : IOErrorKind
deriving DecidableEq, Repr

/-- `rand_core::Error`: a semantic kind, a static message, and optionally the
underlying OS error attached as a diagnostic cause. -/
structure RandError where
  kind : ErrorKind
  msg : String
  cause : Option IOError
deriving DecidableEq, Repr

/-- `Error::new(kind, msg)`: no cause attached. -/
def RandError.new (kind : ErrorKind) (msg : String) : RandError :=
  { kind := kind, msg := msg, cause := none }

/-- `Error::with_cause(kind, msg, cause)`. -/
def RandError.with_cause (kind : ErrorKind) (msg : String) (cause : IOError) :
    RandError :=
  { kind := kind, msg := msg, cause := some cause }

/-- Modelled from the spec: `ErrorKind::should_wait` is defined in the
`rand_core` crate of this repository, which is not under `src/`. Spec section 3
singles out `NotReady` as the kind where the caller "must wait before
retrying"; section 4.5 routes exactly `NotReady` to the sleep-then-retry
branch. -/
def ErrorKind.should_wait : ErrorKind → Bool
  | ErrorKind.NotReady => true
  | _ => false

/-- Modelled from the spec: `ErrorKind::should_retry` is defined in the
`rand_core` crate of this repository, which is not under `src/`. Spec section 3
describes `Transient` as "momentary interruption, safe to retry immediately",
and section 4.5 says `Unavailable` and `Unexpected` "are not retried"; the
`NotReady` case is consumed by the `should_wait` branch, which
`OsRng::fill_bytes` checks first. -/
def ErrorKind.should_retry : ErrorKind → Bool
  | ErrorKind.Transient => true
  | _ => false

/-- A backend variant, the `OsRngImpl` trait object seen by `OsRng`:
`max_chunk_size()` and `fill_chunk(slice)`. A backend call is modelled by the
sequence number of the call and the length of the slice; on success it yields
the bytes written into the slice (bytes as `Nat` for simplicity). -/
structure OsRngImpl where
  max_chunk_size : Option Nat
  fill_chunk : Nat → Nat → Except RandError (List Nat)

/-- `Except.isOk` as a plain boolean discriminator. -/
def isOkB {ε α : Type} : Except ε α → Bool
  | Except.ok _ => true
  | Except.error _ => false

/-- The (offset, length) pairs of the slices yielded by
`dest.chunks_mut(size)` over a buffer of length `n`, starting at offset `off`.
`fuel` bounds the recursion; `fuel = n` always suffices when `0 < size`
(each emitted chunk consumes at least one byte). `slice::chunks_mut` itself
requires a nonzero `size`. -/
def chunksGo : Nat → Nat → Nat → Nat → List (Nat × Nat)
  | 0, _, _, _ => []
  | fuel + 1, off, n, size =>
    if n = 0 then []
    else if n ≤ size then [(off, n)]
    else (off, size) :: chunksGo fuel (off + size) (n - size) size

/-- `dest.chunks_mut(size)` for a buffer of length `n`: consecutive slices of
length `size`, the last one possibly shorter. -/
def chunks_mut (n size : Nat) : List (Nat × Nat) :=
  chunksGo n 0 n size

/-- Overwrite `buf[off .. off + bs.length]` with `bs` (the effect of a backend
filling the slice starting at `off`). -/
def writeRange (buf : List Nat) (off : Nat) (bs : List Nat) : List Nat :=
  buf.take off ++ bs ++ buf.drop (off + bs.length)

/-- Outcome of a `try_fill_bytes` run: the final buffer, the backend calls
actually issued (offset and length of each `fill_chunk` call, in order), and
the returned result. -/
structure RunResult where
  buffer : List Nat
  calls : List (Nat × Nat)
  result : Except RandError Unit

/-- The `for slice in dest.chunks_mut(max) { self.0.fill_chunk(slice)?; }` loop
of `OsRng::try_fill_bytes`: drive `fill_chunk` over the chunk list in order,
stopping at (and recording) the first failing call. -/
def runChunks (fill : Nat → Nat → Except RandError (List Nat)) :
    List Nat → Nat → List (Nat × Nat) → RunResult
  | buf, _, [] => ⟨buf, [], Except.ok ()⟩
  | buf, idx, (off, len) :: rest =>
    match fill idx len with
    | Except.error e => ⟨buf, [(off, len)], Except.error e⟩
    | Except.ok bs =>
      let r := runChunks fill (writeRange buf off bs) (idx + 1) rest
      ⟨r.buffer, (off, len) :: r.calls, r.result⟩

/-- The chunk list `OsRng::try_fill_bytes` iterates over for a given backend
and destination buffer. -/
def try_fill_chunks (rng : OsRngImpl) (dest : List Nat) : List (Nat × Nat) :=
  if dest.length = 0 then []
  else chunks_mut dest.length (rng.max_chunk_size.getD dest.length)

/-- `OsRng::try_fill_bytes`: return `Ok` at once on an empty buffer, otherwise
split the buffer into chunks bounded by
`max_chunk_size().unwrap_or(dest.len())` and fill each in order. -/
def try_fill_bytes (rng : OsRngImpl) (dest : List Nat) : RunResult :=
  if dest.length = 0 then ⟨dest, [], Except.ok ()⟩
  else runChunks rng.fill_chunk dest 0
    (chunks_mut dest.length (rng.max_chunk_size.getD dest.length))

/-- Boolean check that a chunk list tiles the half-open interval from `start`
to `stop` exactly: chunks are consecutive (each starts where the previous one
ended), nonempty, and together cover the interval with no overlap or gap. -/
def coversExactly : Nat → Nat → List (Nat × Nat) → Bool
  | start, stop, [] => start == stop
  | start, stop, (off, len) :: rest =>
    (off == start) && decide (0 < len) && coversExactly (start + len) stop rest

/-- `const MAX_RETRY_PERIOD: u32 = 10;` in `OsRng::fill_bytes` (seconds). -/
def MAX_RETRY_PERIOD : Nat := 10

/-- `const WAIT_DUR_MS: u32 = 100;` in `OsRng::fill_bytes` (milliseconds). -/
def WAIT_DUR_MS : Nat := 100

/-- `const RETRY_LIMIT: u32 = (MAX_RETRY_PERIOD * 1000) / WAIT_DUR_MS;`. -/
def RETRY_LIMIT : Nat := (MAX_RETRY_PERIOD * 1000) / WAIT_DUR_MS

/-- `const TRANSIENT_RETRIES: u32 = 8;` in `OsRng::fill_bytes`. -/
def TRANSIENT_RETRIES : Nat := 8

/-- The amount `err_count += (RETRY_LIMIT + TRANSIENT_RETRIES - 1) /
TRANSIENT_RETRIES;` adds per transient failure (round up, per the source
comment). -/
def transient_inc : Nat := (RETRY_LIMIT + TRANSIENT_RETRIES - 1) / TRANSIENT_RETRIES

/-- How one `OsRng::fill_bytes` invocation ended. `outOfFuel` marks exhaustion
of the recursion bound of the model, proved unreachable below (the source loop
is unbounded; the bound `RETRY_LIMIT + 1` is shown to suffice). -/
inductive FillStatus where
  | success
  | panicked
  | outOfFuel
deriving DecidableEq, Repr

/-- Observable outcome of `OsRng::fill_bytes`: final status, how many
`try_fill_bytes` calls were made, and how many `thread::sleep(wait_dur)` calls
(each of `WAIT_DUR_MS` milliseconds) were made. -/
structure FillResult where
  status : FillStatus
  calls : Nat
  sleeps : Nat
deriving DecidableEq, Repr

/-- The retry loop of `OsRng::fill_bytes`. The environment is abstracted as
`seq : Nat → Option ErrorKind`, giving for each successive `try_fill_bytes`
call its outcome (`none` for `Ok`, `some k` for an error of kind `k`; the loop
inspects nothing but the kind). State follows the source: `i` counts calls made
so far, `err_count` and `error_logged` are the loop variables, `sleeps` counts
sleeps performed. `fuel` bounds the recursion. -/
def fill_bytes_loop (seq : Nat → Option ErrorKind) :
    Nat → Nat → Nat → Bool → Nat → FillResult
  | 0, i, _, _, sleeps => ⟨FillStatus.outOfFuel, i, sleeps⟩
  | fuel + 1, i, err_count, _error_logged, sleeps =>
    match seq i with
    | none => ⟨FillStatus.success, i + 1, sleeps⟩
    | some k =>
      if RETRY_LIMIT ≤ err_count then
        ⟨FillStatus.panicked, i + 1, sleeps⟩
      else if k.should_wait then
        fill_bytes_loop seq fuel (i + 1) (err_count + 1) true (sleeps + 1)
      else if k.should_retry then
        fill_bytes_loop seq fuel (i + 1) (err_count + transient_inc) true sleeps
      else
        ⟨FillStatus.panicked, i + 1, sleeps⟩

/-- `OsRng::fill_bytes`, started with `err_count = 0`, `error_logged = false`
and recursion bound `RETRY_LIMIT + 1` (shown sufficient below). -/
def fill_bytes (seq : Nat → Option ErrorKind) : FillResult :=
  fill_bytes_loop seq (RETRY_LIMIT + 1) 0 0 false 0

/-- The `map_err` closure inside `random_device::open_with_test`: the error
classifier for the device open path, readiness probe included. -/
def random_device.map_err (err : IOError) : RandError :=
  match err.kind with
  | IOErrorKind.Interrupted =>
    RandError.new ErrorKind.Transient "interrupted"
  | IOErrorKind.WouldBlock =>
    RandError.with_cause ErrorKind.NotReady "OS RNG not yet seeded" err
  | _ =>
    RandError.with_cause ErrorKind.Unavailable "error while opening random device" err

/-- A step of the raw OS `read` on the device file handle: either `Ok(n)`
(`n` bytes were read) or an `io::Error`. -/
inductive ReadStep where
  | ok (n : Nat)
  | err (e : IOError)
deriving DecidableEq, Repr

/-- `std::io::Read::read_exact` (std, outside this repository), as documented:
repeatedly read until the buffer of `rem` bytes is full, retrying transparently
on `ErrorKind::Interrupted`, failing with `UnexpectedEof` if the reader is
exhausted first, and surfacing any other error as is. `steps` is the stream of
raw read outcomes the OS produces. -/
def read_exact : List ReadStep → Nat → Except IOError Unit
  | _, 0 => Except.ok ()
  | [], _ + 1 => Except.error { kind := IOErrorKind.UnexpectedEof }
  | step :: rest, rem + 1 =>
    match step with
    | ReadStep.ok 0 => Except.error { kind := IOErrorKind.UnexpectedEof }
    | ReadStep.ok n => read_exact rest (rem + 1 - n)
    | ReadStep.err e =>
      if e.kind = IOErrorKind.Interrupted then read_exact rest (rem + 1)
      else Except.error e

/-- `random_device::read`: `file.read_exact(dest)` with every surfaced error
mapped to `ErrorKind::Unavailable` with message "error reading random device"
and the OS error attached as cause. -/
def random_device.read (steps : List ReadStep) (n : Nat) : Except RandError Unit :=
  match read_exact steps n with
  | Except.ok _ => Except.ok ()
  | Except.error err =>
    Except.error (RandError.with_cause ErrorKind.Unavailable "error reading random device" err)

/-- Outcome of one `random_device::open_with_test` call: the shared handle
state afterwards (the contents of `READ_RNG_FILE`, a file handle modelled as a
`Nat`), the returned result, whether a handle was opened and stored during this
call, and whether the readiness probe ran during this call. -/
structure OpenOutcome where
  handle : Option Nat
  result : Except RandError Unit
  opened : Nat
  probed : Nat
deriving Repr

/-- `random_device::open_with_test`, one call under the lock. `st` is the
handle stored in `READ_RNG_FILE` on entry; `test` is the outcome the readiness
probe would produce if run; `open_res` the outcome `File::open(path)` would
produce if run. If a handle is already stored the call is a no-op success;
otherwise the probe runs first and its failure (mapped through `map_err`)
leaves no handle stored; a failed open likewise stores nothing. -/
def open_with_test (st : Option Nat) (test : Except IOError Unit)
    (open_res : Except IOError Nat) : OpenOutcome :=
  match st with
  | some f => ⟨some f, Except.ok (), 0, 0⟩
  | none =>
    match test with
    | Except.error e => ⟨none, Except.error (random_device.map_err e), 0, 1⟩
    | Except.ok _ =>
      match open_res with
      | Except.error e => ⟨none, Except.error (random_device.map_err e), 0, 1⟩
      | Except.ok f => ⟨some f, Except.ok (), 1, 1⟩

/-- Run a sequence of `open_with_test` calls (one per source-handle
construction in the process, serialized by the mutex), returning the final
shared state and the total number of handles opened and stored. -/
def runOpens : Option Nat → List (Except IOError Unit × Except IOError Nat) →
    Option Nat × Nat
  | st, [] => (st, 0)
  | st, (t, o) :: rest =>
    let out := open_with_test st t o
    let (fin, total) := runOpens out.handle rest
    (fin, out.opened + total)

/-- A backend whose calls all succeed, producing the byte `3`; used to
instantiate hypotheses about all-successful backends. -/
def fillC1 : Nat → Nat → Except RandError (List Nat) :=
  fun _ len => Except.ok (List.replicate len 3)

/-- The error `getrandom_try_fill` produces when the entropy pool is not yet
seeded. -/
def errC5 : RandError :=
  RandError.with_cause ErrorKind.NotReady "getrandom not ready"
    { kind := IOErrorKind.WouldBlock }

/-- A backend whose first chunk call succeeds (producing the byte `1`) and
whose second call fails with `errC5`. -/
def fillC5 : Nat → Nat → Except RandError (List Nat) :=
  fun i len => if i = 0 then Except.ok (List.replicate len 1) else Except.error errC5

/-- The error the Solaris `getrandom` backend produces on a short read. -/
def errC10 : RandError :=
  RandError.new ErrorKind.Unavailable "unexpected getrandom error"

/-- A backend whose first chunk call succeeds (producing the byte `7`) and
whose second call fails with `errC10`. -/
def fillC10 : Nat → Nat → Except RandError (List Nat) :=
  fun i len => if i = 0 then Except.ok (List.replicate len 7) else Except.error errC10

theorem chunksGo_cover (size : Nat) (hsize : 0 < size) :
    ∀ fuel n off, n ≤ fuel →
      coversExactly off (off + n) (chunksGo fuel off n size) = true := by
  intro fuel
  induction fuel with
  | zero =>
    intro n off hn
    have h0 : n = 0 := by omega
    subst h0
    simp [chunksGo, coversExactly]
  | succ fuel ih =>
    intro n off hn
    by_cases h0 : n = 0
    · subst h0; simp [chunksGo, coversExactly]
    · by_cases h1 : n ≤ size
      · simp [chunksGo, h0, h1, coversExactly]
        omega
      · have hrec := ih (n - size) (off + size) (by omega)
        have heq : off + size + (n - size) = off + n := by omega
        rw [heq] at hrec
        simp [chunksGo, h0, h1, coversExactly, hrec, hsize]

theorem chunksGo_le (size : Nat) :
    ∀ fuel n off,
      ((chunksGo fuel off n size).all fun p => decide (p.2 ≤ size)) = true := by
  intro fuel
  induction fuel with
  | zero => intro n off; simp [chunksGo]
  | succ fuel ih =>
    intro n off
    by_cases h0 : n = 0
    · subst h0; simp [chunksGo]
    · by_cases h1 : n ≤ size
      · simp [chunksGo, h0, h1]
      · simp [chunksGo, h0, h1, ih]

theorem chunksGo_length (size : Nat) (hsize : 0 < size) :
    ∀ fuel n off, n ≤ fuel →
      (chunksGo fuel off n size).length = (n + size - 1) / size := by
  intro fuel
  induction fuel with
  | zero =>
    intro n off hn
    have h0 : n = 0 := by omega
    subst h0
    simp [chunksGo]
    rw [Nat.div_eq_of_lt (by omega)]
  | succ fuel ih =>
    intro n off hn
    by_cases h0 : n = 0
    · subst h0
      simp [chunksGo]
      rw [Nat.div_eq_of_lt (by omega)]
    · by_cases h1 : n ≤ size
      · have e1 : n + size - 1 = (n - 1) + size := by omega
        rw [e1, Nat.add_div_right _ hsize, Nat.div_eq_of_lt (by omega)]
        simp [chunksGo, h0, h1]
      · have e1 : n + size - 1 = (n - 1) + size := by omega
        have e2 : n - size + size - 1 = n - 1 := by omega
        have hrec := ih (n - size) (off + size) (by omega)
        rw [e2] at hrec
        simp [chunksGo, h0, h1, hrec]
        rw [e1, Nat.add_div_right _ hsize]

theorem runChunks_calls_ok (fill : Nat → Nat → Except RandError (List Nat))
    (hok : ∀ i len, isOkB (fill i len) = true) :
    ∀ cs buf idx, (runChunks fill buf idx cs).calls = cs := by
  intro cs
  induction cs with
  | nil => intro buf idx; rfl
  | cons c rest ih =>
    intro buf idx
    obtain ⟨off, len⟩ := c
    have h := hok idx len
    cases hfill : fill idx len with
    | error e => rw [hfill] at h; simp [isOkB] at h
    | ok bs => simp [runChunks, hfill, ih]

theorem runChunks_first_error (fill : Nat → Nat → Except RandError (List Nat))
    (e : RandError) :
    ∀ cs k buf idx, k < cs.length →
      (∀ i, i < k → isOkB (fill (idx + i) ((cs.getD i (0, 0)).2)) = true) →
      fill (idx + k) ((cs.getD k (0, 0)).2) = Except.error e →
      (runChunks fill buf idx cs).result = Except.error e ∧
      (runChunks fill buf idx cs).calls.length = k + 1 := by
  intro cs
  induction cs with
  | nil => intro k buf idx hk; simp at hk
  | cons c rest ih =>
    intro k buf idx hk hok herr
    obtain ⟨off, len⟩ := c
    cases k with
    | zero =>
      simp at herr
      simp [runChunks, herr]
    | succ k =>
      have h0 := hok 0 (Nat.succ_pos k)
      simp at h0
      cases hfill : fill idx len with
      | error e0 => rw [hfill] at h0; simp [isOkB] at h0
      | ok bs =>
        have hrec := ih k (writeRange buf off bs) (idx + 1)
          (by simpa using hk)
          (fun i hi => by
            have hh := hok (i + 1) (by omega)
            have e1 : idx + (i + 1) = idx + 1 + i := by omega
            rw [e1] at hh
            simpa using hh)
          (by
            have e1 : idx + (k + 1) = idx + 1 + k := by omega
            rw [e1] at herr
            simpa using herr)
        simp [runChunks, hfill]
        exact ⟨hrec.1, by rw [hrec.2]⟩

/-- C1: for a nonempty buffer of length `n` and a backend with
`max_chunk_size() = Some m` (`m` positive, as every backend in the source
declares), `try_fill_bytes` splits the buffer into consecutive slices that tile
it exactly — in order, no overlap, no gap — each of length at most `m`, there
are exactly `⌈n / m⌉` of them, and (all calls succeeding) `fill_chunk` is
called on precisely that slice list in order; with `max_chunk_size() = None`
the whole buffer is passed in one single backend call. -/
theorem claim1_chunking (fillF : Nat → Nat → Except RandError (List Nat))
    (n m : Nat) (dest : List Nat)
    (hd : dest.length = n) (hn : 0 < n) (hm : 0 < m)
    (hok : ∀ i len, isOkB (fillF i len) = true) :
    coversExactly 0 n (chunks_mut n m) = true ∧
    ((chunks_mut n m).all fun p => decide (p.2 ≤ m)) = true ∧
    (chunks_mut n m).length = (n + m - 1) / m ∧
    (try_fill_bytes ⟨some m, fillF⟩ dest).calls = chunks_mut n m ∧
    (try_fill_bytes ⟨none, fillF⟩ dest).calls = [(0, n)] := by
  have hne : ¬ dest.length = 0 := by omega
  have hsingle : chunks_mut n n = [(0, n)] := by
    cases n with
    | zero => omega
    | succ n0 => simp [chunks_mut, chunksGo]
  refine ⟨?_, ?_, ?_, ?_, ?_⟩
  · have h := chunksGo_cover m hm n n 0 le_rfl
    simpa [chunks_mut] using h
  · exact chunksGo_le m n n 0
  · exact chunksGo_length m hm n n 0 le_rfl
  · have hn0 : ¬ n = 0 := by omega
    simp [try_fill_bytes, hne, hd, hn0]
    exact runChunks_calls_ok fillF hok _ _ _
  · have hn0 : ¬ n = 0 := by omega
    simp [try_fill_bytes, hne, hd, hsingle, hn0]
    have h := runChunks_calls_ok fillF hok [(0, n)] dest 0
    rw [h]

/-- Witness for C1 at `n = 5`, `m = 2`, an all-successful backend. -/
theorem claim1_chunking_witness :
    coversExactly 0 5 (chunks_mut 5 2) = true ∧
    ((chunks_mut 5 2).all fun p => decide (p.2 ≤ 2)) = true ∧
    (chunks_mut 5 2).length = (5 + 2 - 1) / 2 ∧
    (try_fill_bytes ⟨some 2, fillC1⟩ [0, 0, 0, 0, 0]).calls = chunks_mut 5 2 ∧
    (try_fill_bytes ⟨none, fillC1⟩ [0, 0, 0, 0, 0]).calls = [(0, 5)] :=
  claim1_chunking fillC1 5 2 [0, 0, 0, 0, 0] rfl (by decide) (by decide)
    (fun i len => rfl)

/-- C5: `try_fill_bytes` performs no retry: if the first `k` chunk calls
succeed and call `k` fails with error `e`, the whole operation returns exactly
that error `e` (same kind, message and attached cause, by equality of the
error value) and issues exactly `k + 1` backend calls — it stops at the first
failure. -/
theorem claim5_first_error (rng : OsRngImpl) (dest : List Nat) (k : Nat)
    (e : RandError)
    (hk : k < (try_fill_chunks rng dest).length)
    (hok : ∀ i, i < k →
      isOkB (rng.fill_chunk i ((try_fill_chunks rng dest).getD i (0, 0)).2) = true)
    (herr : rng.fill_chunk k ((try_fill_chunks rng dest).getD k (0, 0)).2 =
      Except.error e) :
    (try_fill_bytes rng dest).result = Except.error e ∧
    (try_fill_bytes rng dest).calls.length = k + 1 := by
  by_cases hlen : dest.length = 0
  · simp [try_fill_chunks, hlen] at hk
  · have hcs : try_fill_chunks rng dest =
        chunks_mut dest.length (rng.max_chunk_size.getD dest.length) := by
      simp [try_fill_chunks, hlen]
    rw [hcs] at hk hok herr
    have h := runChunks_first_error rng.fill_chunk e
      (chunks_mut dest.length (rng.max_chunk_size.getD dest.length)) k dest 0 hk
      (fun i hi => by simpa using hok i hi) (by simpa using herr)
    simpa [try_fill_bytes, hlen] using h

/-- Witness for C5: a two-chunk buffer whose second chunk call fails with a
`NotReady` error carrying a `WouldBlock` cause. -/
theorem claim5_first_error_witness :
    (try_fill_bytes ⟨some 2, fillC5⟩ [0, 0, 0]).result = Except.error errC5 ∧
    (try_fill_bytes ⟨some 2, fillC5⟩ [0, 0, 0]).calls.length = 1 + 1 :=
  claim5_first_error ⟨some 2, fillC5⟩ [0, 0, 0] 1 errC5 (by decide)
    (fun i hi => by
      have h : i = 0 := by omega
      subst h; rfl)
    rfl

/-- C9: on a zero-length buffer `try_fill_bytes` succeeds immediately without
touching the backend: the buffer is unchanged, the list of backend calls is
empty, and the outcome does not depend on the backend at all (in particular
neither `fill_chunk` nor `max_chunk_size` is consulted). -/
theorem claim9_zero_length (rng rng2 : OsRngImpl) :
    (try_fill_bytes rng []).result = Except.ok () ∧
    (try_fill_bytes rng []).calls = [] ∧
    (try_fill_bytes rng []).buffer = [] ∧
    try_fill_bytes rng [] = try_fill_bytes rng2 [] := by
  exact ⟨rfl, rfl, rfl, rfl⟩

/-- C10: `try_fill_bytes` is not atomic on the destination: there is a backend
and a multi-chunk buffer for which it returns an error although the chunk
preceding the failing one has already been overwritten with backend output
(backend bytes `7` in the first chunk of the final buffer, original zeros in
the rest). -/
theorem claim10_partial_fill :
    ∃ (rng : OsRngImpl) (dest : List Nat),
      dest = [0, 0, 0, 0] ∧
      1 < (try_fill_chunks rng dest).length ∧
      (try_fill_bytes rng dest).result = Except.error errC10 ∧
      (try_fill_bytes rng dest).buffer = [7, 7, 0, 0] ∧
      (try_fill_bytes rng dest).calls = [(0, 2), (2, 2)] := by
  exact ⟨⟨some 2, fillC10⟩, [0, 0, 0, 0], rfl, by decide, rfl, rfl, rfl⟩

/-- An environment in which every `try_fill_bytes` call fails with
`NotReady`. -/
def seqN : Nat → Option ErrorKind := fun _ => some ErrorKind.NotReady

/-- An environment in which every `try_fill_bytes` call fails with
`Transient`. -/
def seqT : Nat → Option ErrorKind := fun _ => some ErrorKind.Transient

/-- An environment in which every `try_fill_bytes` call fails with
`Unavailable`. -/
def seqU : Nat → Option ErrorKind := fun _ => some ErrorKind.Unavailable

theorem fill_bytes_loop_wait_step (seq : Nat → Option ErrorKind)
    (fuel i c s : Nat) (l : Bool) (k : ErrorKind)
    (hseq : seq i = some k) (hw : k.should_wait = true) (hc : c < RETRY_LIMIT) :
    fill_bytes_loop seq (fuel + 1) i c l s =
      fill_bytes_loop seq fuel (i + 1) (c + 1) true (s + 1) := by
  have hc2 : ¬ RETRY_LIMIT ≤ c := by omega
  simp [fill_bytes_loop, hseq, hc2, hw]

theorem fill_bytes_loop_retry_step (seq : Nat → Option ErrorKind)
    (fuel i c s : Nat) (l : Bool) (k : ErrorKind)
    (hseq : seq i = some k) (hw : k.should_wait = false)
    (hr : k.should_retry = true) (hc : c < RETRY_LIMIT) :
    fill_bytes_loop seq (fuel + 1) i c l s =
      fill_bytes_loop seq fuel (i + 1) (c + transient_inc) true s := by
  have hc2 : ¬ RETRY_LIMIT ≤ c := by omega
  simp [fill_bytes_loop, hseq, hc2, hw, hr]

theorem fill_bytes_loop_sleeps_le (seq : Nat → Option ErrorKind) :
    ∀ fuel i c l s,
      (fill_bytes_loop seq fuel i c l s).sleeps ≤ s + (RETRY_LIMIT - c) := by
  intro fuel
  induction fuel with
  | zero => intro i c l s; simp [fill_bytes_loop]
  | succ fuel ih =>
    intro i c l s
    cases hseq : seq i with
    | none => simp [fill_bytes_loop, hseq]
    | some k =>
      by_cases hc : RETRY_LIMIT ≤ c
      · simp [fill_bytes_loop, hseq, hc]
      · by_cases hw : k.should_wait
        · rw [fill_bytes_loop_wait_step seq fuel i c s l k hseq hw (by omega)]
          have h := ih (i + 1) (c + 1) true (s + 1)
          omega
        · have hw2 : k.should_wait = false := by simpa using hw
          by_cases hr : k.should_retry
          · rw [fill_bytes_loop_retry_step seq fuel i c s l k hseq hw2 hr
              (by omega)]
            have h := ih (i + 1) (c + transient_inc) true s
            omega
          · have hr2 : k.should_retry = false := by simpa using hr
            simp [fill_bytes_loop, hseq, hc, hw2, hr2]

theorem fill_bytes_loop_status (seq : Nat → Option ErrorKind) :
    ∀ fuel i c l s, RETRY_LIMIT + 1 ≤ fuel + c → 1 ≤ fuel →
      (fill_bytes_loop seq fuel i c l s).status = FillStatus.success ∨
      (fill_bytes_loop seq fuel i c l s).status = FillStatus.panicked := by
  intro fuel
  induction fuel with
  | zero => intro i c l s h1 h2; omega
  | succ fuel ih =>
    intro i c l s h1 h2
    cases hseq : seq i with
    | none => simp [fill_bytes_loop, hseq]
    | some k =>
      by_cases hc : RETRY_LIMIT ≤ c
      · simp [fill_bytes_loop, hseq, hc]
      · have hti : 1 ≤ transient_inc := by decide
        by_cases hw : k.should_wait
        · rw [fill_bytes_loop_wait_step seq fuel i c s l k hseq hw (by omega)]
          exact ih (i + 1) (c + 1) true (s + 1) (by omega) (by omega)
        · have hw2 : k.should_wait = false := by simpa using hw
          by_cases hr : k.should_retry
          · rw [fill_bytes_loop_retry_step seq fuel i c s l k hseq hw2 hr
              (by omega)]
            exact ih (i + 1) (c + transient_inc) true s (by omega) (by omega)
          · have hr2 : k.should_retry = false := by simpa using hr
            simp [fill_bytes_loop, hseq, hc, hw2, hr2]

theorem fill_bytes_loop_success_last (seq : Nat → Option ErrorKind) :
    ∀ fuel i c l s,
      (fill_bytes_loop seq fuel i c l s).status = FillStatus.success →
      seq ((fill_bytes_loop seq fuel i c l s).calls - 1) = none := by
  intro fuel
  induction fuel with
  | zero => intro i c l s h; simp [fill_bytes_loop] at h
  | succ fuel ih =>
    intro i c l s h
    cases hseq : seq i with
    | none => simp [fill_bytes_loop, hseq]
    | some k =>
      by_cases hc : RETRY_LIMIT ≤ c
      · simp [fill_bytes_loop, hseq, hc] at h
      · by_cases hw : k.should_wait
        · rw [fill_bytes_loop_wait_step seq fuel i c s l k hseq hw (by omega)]
            at h ⊢
          exact ih (i + 1) (c + 1) true (s + 1) h
        · have hw2 : k.should_wait = false := by simpa using hw
          by_cases hr : k.should_retry
          · rw [fill_bytes_loop_retry_step seq fuel i c s l k hseq hw2 hr
              (by omega)] at h ⊢
            exact ih (i + 1) (c + transient_inc) true s h
          · have hr2 : k.should_retry = false := by simpa using hr
            simp [fill_bytes_loop, hseq, hc, hw2, hr2] at h

/-- C2: in `OsRng::fill_bytes`, every `NotReady` failure (the kind for which
`should_wait` holds) below the retry limit performs exactly one sleep of the
fixed `wait_dur` (`WAIT_DUR_MS = 100` milliseconds) and then retries
(err_count grows by one); the total number of such sleeps over any run is at
most `RETRY_LIMIT = 100`, so the total wait is bounded by the fixed ceiling
`MAX_RETRY_PERIOD = 10` seconds before the loop gives up. -/
theorem claim2_notready_backoff (seq : Nat → Option ErrorKind)
    (i c s fuel : Nat) (l : Bool) (k : ErrorKind)
    (h1 : seq i = some k) (h2 : k.should_wait = true) (h3 : c < RETRY_LIMIT) :
    fill_bytes_loop seq (fuel + 1) i c l s =
      fill_bytes_loop seq fuel (i + 1) (c + 1) true (s + 1) ∧
    WAIT_DUR_MS = 100 ∧
    RETRY_LIMIT = 100 ∧
    RETRY_LIMIT * WAIT_DUR_MS = MAX_RETRY_PERIOD * 1000 ∧
    (fill_bytes seq).sleeps ≤ RETRY_LIMIT ∧
    (fill_bytes seq).sleeps * WAIT_DUR_MS ≤ MAX_RETRY_PERIOD * 1000 := by
  have hc : ¬ RETRY_LIMIT ≤ c := by omega
  have hstep : fill_bytes_loop seq (fuel + 1) i c l s =
      fill_bytes_loop seq fuel (i + 1) (c + 1) true (s + 1) := by
    simp [fill_bytes_loop, h1, hc, h2]
  have hsl := fill_bytes_loop_sleeps_le seq (RETRY_LIMIT + 1) 0 0 false 0
  have hbound : (fill_bytes seq).sleeps ≤ RETRY_LIMIT := by
    simpa [fill_bytes] using hsl
  refine ⟨hstep, by decide, by decide, by decide, hbound, ?_⟩
  have hw : WAIT_DUR_MS = 100 := by decide
  have hr : RETRY_LIMIT = 100 := by decide
  have hm : MAX_RETRY_PERIOD = 10 := by decide
  rw [hw, hm]
  omega

/-- Witness for C2 under an environment that always reports `NotReady`. -/
theorem claim2_notready_backoff_witness :
    fill_bytes_loop seqN (0 + 1) 0 0 false 0 =
      fill_bytes_loop seqN 0 (0 + 1) (0 + 1) true (0 + 1) ∧
    WAIT_DUR_MS = 100 ∧
    RETRY_LIMIT = 100 ∧
    RETRY_LIMIT * WAIT_DUR_MS = MAX_RETRY_PERIOD * 1000 ∧
    (fill_bytes seqN).sleeps ≤ RETRY_LIMIT ∧
    (fill_bytes seqN).sleeps * WAIT_DUR_MS ≤ MAX_RETRY_PERIOD * 1000 :=
  claim2_notready_backoff seqN 0 0 0 0 false ErrorKind.NotReady rfl rfl
    (by decide)

/-- C3: `OsRng::fill_bytes` always terminates: under every environment the
modelled loop (run with recursion bound `RETRY_LIMIT + 1`, proved sufficient)
ends in `success` or `panicked`, never by exhausting the bound; a `success`
outcome happens only because the final `try_fill_bytes` call returned `Ok`
(so the buffer was fully filled); and whenever `err_count` has reached
`RETRY_LIMIT` and the fallible fill errors again, the loop panics on that very
iteration instead of returning partial or zeroed data. -/
theorem claim3_fill_terminates (seq : Nat → Option ErrorKind)
    (i c s fuel : Nat) (l : Bool) (k : ErrorKind)
    (hc : RETRY_LIMIT ≤ c) (hk : seq i = some k) :
    ((fill_bytes seq).status = FillStatus.success ∨
      (fill_bytes seq).status = FillStatus.panicked) ∧
    ((fill_bytes seq).status = FillStatus.success →
      seq ((fill_bytes seq).calls - 1) = none) ∧
    fill_bytes_loop seq (fuel + 1) i c l s = ⟨FillStatus.panicked, i + 1, s⟩ := by
  refine ⟨?_, ?_, ?_⟩
  · have h := fill_bytes_loop_status seq (RETRY_LIMIT + 1) 0 0 false 0
      (by omega) (by omega)
    simpa [fill_bytes] using h
  · intro h
    have h2 := fill_bytes_loop_success_last seq (RETRY_LIMIT + 1) 0 0 false 0
      (by simpa [fill_bytes] using h)
    simpa [fill_bytes] using h2
  · simp [fill_bytes_loop, hk, hc]

/-- Witness for C3: an environment that always reports `NotReady`, inspected at
an exhausted error count. -/
theorem claim3_fill_terminates_witness :
    ((fill_bytes seqN).status = FillStatus.success ∨
      (fill_bytes seqN).status = FillStatus.panicked) ∧
    ((fill_bytes seqN).status = FillStatus.success →
      seqN ((fill_bytes seqN).calls - 1) = none) ∧
    fill_bytes_loop seqN (0 + 1) 0 RETRY_LIMIT false 0 =
      ⟨FillStatus.panicked, 0 + 1, 0⟩ :=
  claim3_fill_terminates seqN 0 RETRY_LIMIT 0 0 false ErrorKind.NotReady
    (by omega) rfl

/-- C6: in `OsRng::fill_bytes`, a failure whose kind passes `should_retry` (a
`Transient` error) below the retry limit is retried immediately — the sleep
counter is unchanged by the step — and adds
`(RETRY_LIMIT + TRANSIENT_RETRIES - 1) / TRANSIENT_RETRIES = ⌈RETRY_LIMIT / 8⌉
= 13` to the same `err_count` that the wait-based retries use, so that 8
consecutive transient failures exhaust the whole budget: with every call
failing `Transient`, the loop performs 8 retries and panics at the 9th call,
having never slept. -/
theorem claim6_transient_budget (seq : Nat → Option ErrorKind)
    (i c s fuel : Nat) (l : Bool) (k : ErrorKind)
    (h1 : seq i = some k) (h2 : k.should_wait = false)
    (h3 : k.should_retry = true) (h4 : c < RETRY_LIMIT) :
    fill_bytes_loop seq (fuel + 1) i c l s =
      fill_bytes_loop seq fuel (i + 1) (c + transient_inc) true s ∧
    transient_inc = (RETRY_LIMIT + TRANSIENT_RETRIES - 1) / TRANSIENT_RETRIES ∧
    transient_inc = 13 ∧
    TRANSIENT_RETRIES = 8 ∧
    RETRY_LIMIT ≤ TRANSIENT_RETRIES * transient_inc ∧
    (TRANSIENT_RETRIES - 1) * transient_inc < RETRY_LIMIT ∧
    fill_bytes seqT = ⟨FillStatus.panicked, 9, 0⟩ := by
  have hc : ¬ RETRY_LIMIT ≤ c := by omega
  refine ⟨?_, rfl, by decide, by decide, by decide, by decide, by decide⟩
  simp [fill_bytes_loop, h1, hc, h2, h3]

/-- Witness for C6 under an environment that always reports `Transient`. -/
theorem claim6_transient_budget_witness :
    fill_bytes_loop seqT (0 + 1) 0 0 false 0 =
      fill_bytes_loop seqT 0 (0 + 1) (0 + transient_inc) true 0 ∧
    transient_inc = (RETRY_LIMIT + TRANSIENT_RETRIES - 1) / TRANSIENT_RETRIES ∧
    transient_inc = 13 ∧
    TRANSIENT_RETRIES = 8 ∧
    RETRY_LIMIT ≤ TRANSIENT_RETRIES * transient_inc ∧
    (TRANSIENT_RETRIES - 1) * transient_inc < RETRY_LIMIT ∧
    fill_bytes seqT = ⟨FillStatus.panicked, 9, 0⟩ :=
  claim6_transient_budget seqT 0 0 0 0 false ErrorKind.Transient rfl rfl rfl
    (by decide)

/-- C7: when the fallible fill fails with an `Unavailable` or `Unexpected`
error, `OsRng::fill_bytes` panics on that very iteration, whatever the current
error count, sleep count or logging state: these kinds pass neither
`should_wait` nor `should_retry` and are never retried. -/
theorem claim7_fatal_abort (seq : Nat → Option ErrorKind)
    (i c s fuel : Nat) (l : Bool) (k : ErrorKind)
    (h1 : seq i = some k)
    (h2 : k = ErrorKind.Unavailable ∨ k = ErrorKind.Unexpected) :
    k.should_wait = false ∧ k.should_retry = false ∧
    fill_bytes_loop seq (fuel + 1) i c l s = ⟨FillStatus.panicked, i + 1, s⟩ := by
  have hw : k.should_wait = false := by cases h2 <;> subst_vars <;> rfl
  have hr : k.should_retry = false := by cases h2 <;> subst_vars <;> rfl
  refine ⟨hw, hr, ?_⟩
  by_cases hc : RETRY_LIMIT ≤ c
  · simp [fill_bytes_loop, h1, hc]
  · simp [fill_bytes_loop, h1, hc, hw, hr]

/-- Witness for C7 under an environment that always reports `Unavailable`. -/
theorem claim7_fatal_abort_witness :
    ErrorKind.Unavailable.should_wait = false ∧
    ErrorKind.Unavailable.should_retry = false ∧
    fill_bytes_loop seqU (0 + 1) 0 0 false 0 =
      ⟨FillStatus.panicked, 0 + 1, 0⟩ :=
  claim7_fatal_abort seqU 0 0 0 0 false ErrorKind.Unavailable rfl (Or.inl rfl)

/-- C4 counterexample: the claim requires the read path to classify an OS
would-block condition as `NotReady`, like the open path does; but
`random_device::read` maps every error it surfaces — `WouldBlock` included —
to `Unavailable`. -/
theorem claim4_counterexample :
    random_device.read [ReadStep.err { kind := IOErrorKind.WouldBlock }] 1 =
      Except.error (RandError.with_cause ErrorKind.Unavailable
        "error reading random device" { kind := IOErrorKind.WouldBlock }) ∧
    ErrorKind.Unavailable ≠ ErrorKind.NotReady :=
  ⟨rfl, by decide⟩

/-- C4 (amended): the open path of the classifier
(`random_device::open_with_test`, covering the readiness probe and the device
open) maps an OS interrupted condition to `Transient`, an OS would-block
condition to `NotReady` (cause attached), and any other OS failure to
`Unavailable` (cause attached); the read path is different: it retries
interrupted reads internally (they never reach the classifier) and maps every
error it does surface — would-block included — to `Unavailable`. -/
theorem claim4_classifier_amended (e1 e2 e3 err0 : IOError)
    (steps rest : List ReadStep) (nb m : Nat)
    (h1 : e1.kind = IOErrorKind.Interrupted)
    (h2 : e2.kind = IOErrorKind.WouldBlock)
    (h3 : e3.kind ≠ IOErrorKind.Interrupted)
    (h4 : e3.kind ≠ IOErrorKind.WouldBlock)
    (h5 : read_exact steps nb = Except.error err0) :
    random_device.map_err e1 = RandError.new ErrorKind.Transient "interrupted" ∧
    random_device.map_err e2 =
      RandError.with_cause ErrorKind.NotReady "OS RNG not yet seeded" e2 ∧
    (random_device.map_err e3).kind = ErrorKind.Unavailable ∧
    (random_device.map_err e3).cause = some e3 ∧
    random_device.read steps nb =
      Except.error (RandError.with_cause ErrorKind.Unavailable
        "error reading random device" err0) ∧
    read_exact (ReadStep.err { kind := IOErrorKind.Interrupted } :: rest)
      (m + 1) = read_exact rest (m + 1) := by
  refine ⟨?_, ?_, ?_, ?_, ?_, rfl⟩
  · simp [random_device.map_err, h1]
  · simp [random_device.map_err, h2]
  · obtain ⟨k3⟩ := e3
    cases k3 <;> simp_all [random_device.map_err, RandError.with_cause]
  · obtain ⟨k3⟩ := e3
    cases k3 <;> simp_all [random_device.map_err, RandError.with_cause]
  · simp [random_device.read, h5]

/-- Witness for the amended C4 at concrete errors: an interrupted probe, a
would-block probe, a permission failure, and a read that surfaces a
would-block error. -/
theorem claim4_classifier_witness :
    random_device.map_err { kind := IOErrorKind.Interrupted } =
      RandError.new ErrorKind.Transient "interrupted" ∧
    random_device.map_err { kind := IOErrorKind.WouldBlock } =
      RandError.with_cause ErrorKind.NotReady "OS RNG not yet seeded"
        { kind := IOErrorKind.WouldBlock } ∧
    (random_device.map_err { kind := IOErrorKind.PermissionDenied }).kind =
      ErrorKind.Unavailable ∧
    (random_device.map_err { kind := IOErrorKind.PermissionDenied }).cause =
      some { kind := IOErrorKind.PermissionDenied } ∧
    random_device.read [ReadStep.err { kind := IOErrorKind.WouldBlock }] 1 =
      Except.error (RandError.with_cause ErrorKind.Unavailable
        "error reading random device" { kind := IOErrorKind.WouldBlock }) ∧
    read_exact (ReadStep.err { kind := IOErrorKind.Interrupted } ::
      [ReadStep.ok 1]) (0 + 1) = read_exact [ReadStep.ok 1] (0 + 1) :=
  claim4_classifier_amended { kind := IOErrorKind.Interrupted }
    { kind := IOErrorKind.WouldBlock } { kind := IOErrorKind.PermissionDenied }
    { kind := IOErrorKind.WouldBlock }
    [ReadStep.err { kind := IOErrorKind.WouldBlock }] [ReadStep.ok 1] 1 0
    rfl rfl (by decide) (by decide) rfl

theorem runOpens_some (f : Nat) :
    ∀ calls, runOpens (some f) calls = (some f, 0) := by
  intro calls
  induction calls with
  | nil => rfl
  | cons c rest ih =>
    obtain ⟨t, o⟩ := c
    simp [runOpens, open_with_test, ih]

theorem runOpens_none_le_one :
    ∀ calls, (runOpens (none : Option Nat) calls).2 ≤ 1 := by
  intro calls
  induction calls with
  | nil => simp [runOpens]
  | cons c rest ih =>
    obtain ⟨t, o⟩ := c
    cases t with
    | error e => simpa [runOpens, open_with_test] using ih
    | ok u =>
      cases o with
      | error e => simpa [runOpens, open_with_test] using ih
      | ok f => simp [runOpens, open_with_test, runOpens_some f rest]

/-- C8: the shared device state stores at most one open OS handle per process:
over any sequence of `open_with_test` calls starting from the empty state
(one call per public-handle construction, however many handles — clones
included — exist), at most one handle is ever opened and stored; a call that
finds a handle already stored is a no-op success that runs neither the
readiness probe nor the open; and when the readiness probe fails no handle is
stored and the mapped error is returned. -/
theorem claim8_single_handle
    (calls : List (Except IOError Unit × Except IOError Nat)) (f : Nat)
    (t : Except IOError Unit) (o : Except IOError Nat) (e : IOError) :
    (runOpens none calls).2 ≤ 1 ∧
    open_with_test (some f) t o = ⟨some f, Except.ok (), 0, 0⟩ ∧
    open_with_test none (Except.error e) o =
      ⟨none, Except.error (random_device.map_err e), 0, 1⟩ :=
  ⟨runOpens_none_le_one calls, rfl, rfl⟩
